import Mathlib

/-! Verification of the knowledge-base indexing and entity-resolution core of
the WoW Discord helper bot (src/wow_helper_bot.py), via a shallow embedding.

Python dictionaries are modelled as association lists (`List (key × value)`)
with first-match lookup; dictionaries built by repeated assignment use
`pinsert`, which replaces the value of an existing key in place (so that the
last write wins, as for a Python dict). YAML scalars/mappings that the code
probes dynamically are modelled by the inductive type `Val`. Python string
truthiness is `truthy`; `x or y` on such values is `pyOrV`; `needle in hay`
on strings is `pyIn`; `s.lower()` is `pyLower`; `s.title()` is `pyTitle`;
`sorted` on strings is `sortStrings` (lexicographic by code point, as in
Python). These are spelled out over character lists so that every
definition evaluates inside the kernel. -/

namespace WowBot

/-- Python `s.startswith`-style check on character lists (first list is a
possible starting segment of the second). -/
def strStarts : List Char → List Char → Bool
  | [], _ => true
  | _ :: _, [] => false
  | a :: as, b :: bs => a == b && strStarts as bs

/-- Python `needle in hay` substring containment on character lists. -/
def strIn (n : List Char) : List Char → Bool
  | [] => n.isEmpty
  | h :: hs => strStarts n (h :: hs) || strIn n hs

/-- Python `needle in hay` on strings. -/
def pyIn (needle hay : String) : Bool := strIn needle.toList hay.toList

/-- Python `s.startswith(pre)`. -/
def pyStartsWith (s pre : String) : Bool := strStarts pre.toList s.toList

/-- Python `s.lower()`: character-wise lower-casing. -/
def pyLower (s : String) : String := ⟨s.toList.map Char.toLower⟩

/-- Python `s.replace(a, b)` for single-character pattern and replacement,
the only form the code uses (`slug.replace("_", " ")`). -/
def pyReplaceChar (s : String) (a b : Char) : String :=
  ⟨s.toList.map fun c => if c == a then b else c⟩

/-- Helper for `pyTitle`: the boolean records whether the previous character
was alphabetic (Python `str.title` upper-cases each letter that does not
follow a letter and lower-cases the rest). -/
def titleAux : List Char → Bool → List Char
  | [], _ => []
  | c :: cs, prevAlpha =>
    (if c.isAlpha then (if prevAlpha then c.toLower else c.toUpper) else c)
      :: titleAux cs c.isAlpha

/-- Python `s.title()`. -/
def pyTitle (s : String) : String := ⟨titleAux s.toList false⟩

/-- Lexicographic-by-code-point comparison on character lists, as Python
compares strings. -/
def strLe : List Char → List Char → Bool
  | [], _ => true
  | _ :: _, [] => false
  | a :: as, b :: bs =>
    if a.toNat < b.toNat then true
    else if b.toNat < a.toNat then false
    else strLe as bs

/-- Python `a <= b` on strings. -/
def pyLe (a b : String) : Bool := strLe a.toList b.toList

/-- Insertion into a `pyLe`-sorted list of strings. -/
def insertSorted (x : String) : List String → List String
  | [] => [x]
  | y :: ys => if pyLe x y then x :: y :: ys else y :: insertSorted x ys

/-- Python `sorted` on a list of strings (insertion sort; Python's sort is
stable, and stability is irrelevant for a total order on the elements). -/
def sortStrings : List String → List String
  | [] => []
  | x :: xs => insertSorted x (sortStrings xs)

/-- Sortedness of a list of strings in the Python string order. -/
def strSorted (l : List String) : Prop := l.Pairwise fun a b => pyLe a b = true

/-- A loosely-typed YAML value as the code dynamically probes it: either a
string or a mapping from strings to values. (Other YAML scalar shapes are
not exercised by the properties below.) -/
inductive Val where
  | str : String → Val
  | dict : List (String × Val) → Val

/-- Python truthiness of a `Val`: the empty string and the empty mapping are
falsy, everything else is truthy. -/
def truthy : Val → Bool
  | Val.str s => !(s == "")
  | Val.dict l => !l.isEmpty

/-- Truthiness of an optional `Val` (Python `None` is falsy). -/
def truthyO : Option Val → Bool
  | some v => truthy v
  | none => false

/-- Python `a or b` over optional `Val`s. -/
def pyOrV (a b : Option Val) : Option Val := if truthyO a then a else b

/-- Python `if not x: ... return None`-style truthiness filter. -/
def pyTruthy (o : Option Val) : Option Val := if truthyO o then o else none

/-- Dictionary lookup (`m.get(k)`) on an association list: first match. -/
def alookup {α : Type} : List (String × α) → String → Option α
  | [], _ => none
  | p :: ps, k => if p.1 == k then some p.2 else alookup ps k

/-- Dictionary lookup with a default (`m.get(k, d)`). -/
def alookupD {α : Type} (m : List (String × α)) (k : String) (d : α) : α :=
  (alookup m k).getD d

/-- Removal of a key from an association list (used to state that a falsy
entry behaves exactly as an absent one). -/
def eraseKey {α : Type} : List (String × α) → String → List (String × α)
  | [], _ => []
  | p :: ps, s => if p.1 == s then eraseKey ps s else p :: eraseKey ps s

/-- Lookup on a dictionary keyed by `(class, spec)` pairs. -/
def plookup {α : Type} : List ((String × String) × α) → String × String → Option α
  | [], _ => none
  | p :: ps, k => if p.1.1 == k.1 && p.1.2 == k.2 then some p.2 else plookup ps k

/-- Python dictionary assignment `m[k] = v` on a pair-keyed association list:
replaces the first binding of an existing key in place, otherwise appends.
Last write wins on lookup. -/
def pinsert {α : Type} : List ((String × String) × α) → String × String → α →
    List ((String × String) × α)
  | [], k, v => [(k, v)]
  | p :: ps, k, v =>
    if p.1.1 == k.1 && p.1.2 == k.2 then (p.1, v) :: ps else p :: pinsert ps k v

/-- Embeds `safe_load_yaml` (src lines 42-56): a missing or empty YAML
document yields the empty dictionary. The `Option` argument models presence
of the document; `none` covers both a missing file and an empty parse. -/
def safe_load_yaml {α : Type} (doc : Option (List α)) : List α := doc.getD []

/-- Raw guides document, innermost level: `spec -> url`. -/
abbrev RawSpecs := List (String × String)

/-- Raw guides document, middle level: `class -> specs` (a class may map to
YAML null, modelled by `none`, which `load_guides` treats as `{}`). -/
abbrev RawClasses := List (String × Option RawSpecs)

/-- Raw guides document, top level: `provider -> classes`. -/
abbrev GuidesRaw := List (String × Option RawClasses)

/-- A guide index: `(class, spec) -> url`, keys lower-cased at build time. -/
abbrev GuideMap := List ((String × String) × String)

/-- Embeds `raw.get(src, {}) or {}` from `load_guides` (src line 77). -/
def get_or_empty (o : Option (Option RawClasses)) : RawClasses :=
  match o with
  | some (some c) => c
  | _ => []

/-- Embeds the inner loop of `load_guides` (src lines 78-79): insert every
spec of one class under the lower-cased `(class, spec)` key. -/
def insertSpecs (cls : String) (specs : RawSpecs) (acc : GuideMap) : GuideMap :=
  specs.foldl (fun a q => pinsert a (pyLower cls, pyLower q.1) q.2) acc

/-- Embeds the per-provider loop of `load_guides` (src lines 77-79); a class
whose spec mapping is YAML null is treated as `{}` (the `specs or {}` on src
line 78). -/
def buildProvider (classes : RawClasses) : GuideMap :=
  classes.foldl (fun a p => insertSpecs p.1 (p.2.getD []) a) []

/-- Embeds `load_guides` (src lines 59-80): returns the wowhead and icy_veins
guide maps keyed by lower-cased `(class, spec)` pairs. -/
def load_guides (doc : Option GuidesRaw) : GuideMap × GuideMap :=
  (buildProvider (get_or_empty (alookup (safe_load_yaml doc) "wowhead")),
   buildProvider (get_or_empty (alookup (safe_load_yaml doc) "icy_veins")))

/-- The build-time key invariant of a guide map: every key is a lower-cased
`(class, spec)` pair. -/
def lowKeys (m : GuideMap) : Prop :=
  ∀ p ∈ m, ∃ c s, p.1 = (pyLower c, pyLower s)

/-- Top-level document shape for `mplus-routes.yaml` / `raid.yaml`: a mapping
whose relevant key (`dungeons` / `bosses`) holds a slug-keyed mapping. -/
abbrev WrappedDoc := List (String × List (String × Val))

/-- Top-level document shape for `murloc.yaml`. -/
abbrev MurlocDoc := List (String × Val)

/-- Coercion of a `Val` to a dictionary, as the code implicitly assumes when
it takes `murloc_raw["classes"]` and later calls `.get` on it. A non-mapping
value here would crash the Python code downstream; that path is not exercised
by any property below. -/
def valToDict : Val → List (String × Val)
  | Val.dict l => l
  | Val.str _ => []

/-- Embeds the murloc extraction in `setup_hook` (src lines 107-116). -/
def murlocExtract (raw : MurlocDoc) : List (String × Val) :=
  match alookup raw "classes" with
  | some v => valToDict v
  | none =>
    match alookup raw "mplus_class_guides" with
    | some v => valToDict v
    | none => raw

/-- The knowledge base assembled by `setup_hook` (src lines 96-125). -/
structure KB where
  wowhead : GuideMap
  icy : GuideMap
  mplus_routes : List (String × Val)
  murloc : List (String × Val)
  raids : List (String × Val)

/-- Embeds the data-loading part of `WoWBot.setup_hook` (src lines 96-124):
each source document is optional and independently absent-tolerant. -/
def setup_hook (guidesDoc : Option GuidesRaw) (mplusDoc : Option WrappedDoc)
    (murlocDoc : Option MurlocDoc) (raidDoc : Option WrappedDoc) : KB :=
  { wowhead := (load_guides guidesDoc).1
    icy := (load_guides guidesDoc).2
    mplus_routes := alookupD (safe_load_yaml mplusDoc) "dungeons" []
    murloc := murlocExtract (safe_load_yaml murlocDoc)
    raids := alookupD (safe_load_yaml raidDoc) "bosses" [] }

/-- Embeds `WowHelper.__init__`'s `all_classes` (src line 142):
`sorted(list(set(k[0] for k in data["wowhead"].keys())))`. The Python `set`
has no defined order; since the result is sorted and duplicate-free it is
the canonical sorted list of the distinct wowhead classes, modelled by
deduplication followed by sorting. -/
def all_classes (wh : GuideMap) : List String :=
  sortStrings (wh.map fun p => p.1.1).dedup

/-- Embeds `WowHelper.klasse_autocomplete` (src lines 146-158). A choice is
modelled as its `(name, value)` pair. -/
def klasse_autocomplete (all_cls : List String) (current : String) :
    List (String × String) :=
  ((all_cls.filter fun cls => pyIn (pyLower current) (pyLower cls)).map
    fun cls => (pyTitle cls, cls)).take 25

/-- Embeds `WowHelper.spec_autocomplete` (src lines 160-178); the selected
class comes from the interaction namespace and may be absent (`none`), and a
falsy (empty) class short-circuits to `[]`. -/
def spec_autocomplete (wh : GuideMap) (selected_class : Option String)
    (current : String) : List (String × String) :=
  match selected_class with
  | none => []
  | some sc =>
    if sc == "" then []
    else
      (((sortStrings
          ((wh.filter fun p => p.1.1 == pyLower sc).map fun p => p.1.2)).filter
        fun spec => pyIn (pyLower current) (pyLower spec)).map
        fun spec => (pyTitle spec, spec)).take 25

/-- Dictionary field access `v[k]` returning a string, with a default for an
absent key (`v.get(k, d)`). A present non-string value is modelled as `""`
(the Python code would interpolate its repr; no property below exercises
that). -/
def dgetD (v : Val) (k d : String) : String :=
  match v with
  | Val.dict l =>
    match alookup l k with
    | some (Val.str s) => s
    | some (Val.dict _) => ""
    | none => d
  | Val.str _ => d

/-- Display name of a dungeon/boss entry: `d["name"]` (src lines 185, 195).
A missing name would raise a `KeyError` in Python; modelled as `""`, a path
no property below exercises. -/
def getName (v : Val) : String := dgetD v "name" ""

/-- Embeds `WowHelper.dungeon_autocomplete` (src lines 180-188). -/
def dungeon_autocomplete (routes : List (String × Val)) (current : String) :
    List (String × String) :=
  ((routes.filter fun p =>
      pyIn (pyLower current) (pyLower (getName p.2)) ||
      pyIn (pyLower current) (pyLower p.1)).map
    fun p => (getName p.2, p.1)).take 25

/-- Embeds `WowHelper.raid_autocomplete` (src lines 190-198). -/
def raid_autocomplete (raids : List (String × Val)) (current : String) :
    List (String × String) :=
  ((raids.filter fun p =>
      pyIn (pyLower current) (pyLower (getName p.2)) ||
      pyIn (pyLower current) (pyLower p.1)).map
    fun p => (getName p.2, p.1)).take 25

/-- Display name used by `murloc_autocomplete` (src lines 206-210):
`val.get("name") or slug.replace("_", " ").title()` for a mapping, `str(val)`
otherwise. A truthy non-string `name` value would crash the Python code at
`.lower()`; modelled by the default, a path no property below exercises. -/
def murlocDisplay (slug : String) : Val → String
  | Val.dict l =>
    match alookup l "name" with
    | some (Val.str s) =>
      if s == "" then pyTitle (pyReplaceChar slug '_' ' ') else s
    | some (Val.dict _) => pyTitle (pyReplaceChar slug '_' ' ')
    | none => pyTitle (pyReplaceChar slug '_' ' ')
  | Val.str s => s

/-- Embeds `WowHelper.murloc_autocomplete` (src lines 200-213). -/
def murloc_autocomplete (m : List (String × Val)) (current : String) :
    List (String × String) :=
  (((m.map fun p => (murlocDisplay p.1 p.2, p.1)).filter fun c =>
      pyIn (pyLower current) (pyLower c.1) ||
      pyIn (pyLower current) (pyLower c.2)).take 25)

/-- Name used by the routes branch of `mplus_item_autocomplete` in its filter
(src line 234): `(d.get("name", "") or slug)`. -/
def routeFilterName (slug : String) (v : Val) : String :=
  if dgetD v "name" "" == "" then slug else dgetD v "name" ""

/-- Embeds `WowHelper.mplus_item_autocomplete` (src lines 215-239); the
`source` value from the namespace is `none` when absent, and a `Choice` is
identified with its string value. -/
def mplus_item_autocomplete (routes murloc : List (String × Val))
    (source : Option String) (current : String) : List (String × String) :=
  if source.getD "" == "routes" then
    ((routes.filter fun p =>
        pyIn (pyLower current) (pyLower (routeFilterName p.1 p.2)) ||
        pyIn (pyLower current) (pyLower p.1)).map
      fun p => (dgetD p.2 "name" p.1, p.1)).take 25
  else if source.getD "" == "murloc" then murloc_autocomplete murloc current
  else []

/-- Result of the `guide` command: either "no guide found" or an embed with
an optional field per provider (wowhead first, icy_veins second), each field
carrying its URL. -/
inductive GuideRes where
  | notFound : GuideRes
  | found : Option String → Option String → GuideRes

/-- Embeds the resolution logic of `WowHelper.guide` (src lines 250-278):
inputs are lower-cased, `notFound` exactly when the key is in neither
provider map, otherwise one embed field per provider that has the key. -/
def resolveGuide (wh icy : GuideMap) (klasse spec : String) : GuideRes :=
  if (plookup wh (pyLower klasse, pyLower spec)).isNone &&
     (plookup icy (pyLower klasse, pyLower spec)).isNone then
    GuideRes.notFound
  else
    GuideRes.found (plookup wh (pyLower klasse, pyLower spec))
      (plookup icy (pyLower klasse, pyLower spec))

/-- Embeds the dungeon lookup of the routes branch of `WowHelper.mplus`
(src lines 301-308): `routes.get(item) or routes.get(item.lower())`, with a
falsy result reported as not found (`None` here). -/
def resolveDungeon (routes : List (String × Val)) (item : String) : Option Val :=
  pyTruthy (pyOrV (alookup routes item) (alookup routes (pyLower item)))

/-- Embeds the murloc lookup of the murloc branch of `WowHelper.mplus`
(src lines 319-325): same shape as the dungeon lookup. -/
def resolveVariant (murloc : List (String × Val)) (item : String) : Option Val :=
  pyTruthy (pyOrV (alookup murloc item) (alookup murloc (pyLower item)))

/-- Embeds the boss lookup of `WowHelper.raid` (src lines 371-374):
`raids.get(boss.lower())`, with a falsy result reported as not found. -/
def resolveBoss (raids : List (String × Val)) (boss : String) : Option Val :=
  pyTruthy (alookup raids (pyLower boss))

/-- Python `isinstance(v, str) and v.startswith("http")` (src lines 330, 337). -/
def isHttp : Val → Bool
  | Val.str s => pyStartsWith s "http"
  | Val.dict _ => false

/-- Whether any value of a mapping is a URL-like string (the branch test on
src lines 329-331). -/
def anyUrl (l : List (String × Val)) : Bool := l.any fun p => isHttp p.2

/-- Whether all values of a mapping are URL-like strings (the spec's stated
condition for rendering a list of links). -/
def allUrl (l : List (String × Val)) : Bool := l.all fun p => isHttp p.2

/-- String content of a `Val` (Python would fall back to the repr for a
mapping; that path is not exercised below). -/
def valStr : Val → String
  | Val.str s => s
  | Val.dict _ => ""

/-- Insertion of a pair into a key-sorted list, for `sorted(c_data.items())`
(src line 336); a Python dict has unique keys, so ordering by key alone is
faithful. -/
def insertPair (x : String × Val) : List (String × Val) → List (String × Val)
  | [] => [x]
  | y :: ys => if pyLe x.1 y.1 then x :: y :: ys else y :: insertPair x ys

/-- Key-sort of a mapping's items, for `sorted(c_data.items())`. -/
def sortByKey (l : List (String × Val)) : List (String × Val) :=
  l.foldr insertPair []

/-- The fallback single-link name `c_data.get("name", item.replace("_", " ").title())`
(src line 345). -/
def dnameD (l : List (String × Val)) (item : String) : String :=
  match alookup l "name" with
  | some v => valStr v
  | none => pyTitle (pyReplaceChar item '_' ' ')

/-- The optional link URL of the single-link fallback: `url = c_data.get("url")`
followed by `if url:` (src lines 346, 350-351). -/
def durl (l : List (String × Val)) : Option String :=
  match alookup l "url" with
  | some u => if truthy u then some (valStr u) else none
  | none => none

/-- Observable outcome of the `mplus` command, with the embed payloads
(titles/fields as produced by the code) and the ephemeral error cases. -/
inductive Render where
  | dungeonNotFound : String → Render
  | route : String → String → Render
  | murlocNotFound : String → Render
  | linkList : String → List (String × String) → Render
  | murlocSingle : String → Option String → Render
  | murlocPlain : String → Render
  | invalidSource : Render

/-- Whether a render is the list-of-links shape. -/
def Render.isLinkList : Render → Bool
  | Render.linkList _ _ => true
  | _ => false

/-- Embeds `WowHelper.mplus` (src lines 293-361): the routes branch shows a
route embed or "not found"; the murloc branch lists the URL-valued items of a
mapping if any value is a URL-like string, falls back to a single name/url
link otherwise, renders a plain string as display text, and an unknown
source is rejected. -/
def mplus (routes murloc : List (String × Val)) (source item : String) : Render :=
  if source == "routes" then
    match resolveDungeon routes item with
    | none => Render.dungeonNotFound item
    | some d => Render.route (dgetD d "name" item) (dgetD d "url" "")
  else if source == "murloc" then
    match resolveVariant murloc item with
    | none => Render.murlocNotFound item
    | some (Val.dict l) =>
      if anyUrl l then
        Render.linkList (pyTitle (pyReplaceChar item '_' ' '))
          (((sortByKey l).filter fun p => isHttp p.2).map
            fun p => (pyTitle p.1, valStr p.2))
      else Render.murlocSingle (dnameD l item) (durl l)
    | some (Val.str s) => Render.murlocPlain s
  else Render.invalidSource

/-- Modelled from the spec: the TextMentionScanner result (spec sections 4.5
and 6); no scanner exists in the source tree, only the command handlers.
One optional match per category, so at most one match per category holds by
construction. -/
structure ScanResult where
  guideMatch : Option (String × String)
  dungeonMatch : Option String
  bossMatch : Option String

/-- Modelled from the spec: `scanMentions` of the TextMentionScanner (spec
section 4.5), which is absent from the source tree. Faithful to the spec's
words: the text is lower-cased once; a guide mention is a known (class, spec)
pair whose "spec class" or "class spec" concatenation is substring-contained
in the text; a dungeon or boss mention is an entry whose slug or name is
contained; scanning a category stops at the first hit. -/
def scanMentions (kb : KB) (text : String) : ScanResult :=
  { guideMatch :=
      ((kb.wowhead.map Prod.fst) ++ (kb.icy.map Prod.fst)).find? fun p =>
        pyIn (p.2 ++ " " ++ p.1) (pyLower text) ||
        pyIn (p.1 ++ " " ++ p.2) (pyLower text)
    dungeonMatch :=
      (kb.mplus_routes.find? fun p =>
        pyIn (pyLower p.1) (pyLower text) ||
        pyIn (pyLower (getName p.2)) (pyLower text)).map Prod.fst
    bossMatch :=
      (kb.raids.find? fun p =>
        pyIn (pyLower p.1) (pyLower text) ||
        pyIn (pyLower (getName p.2)) (pyLower text)).map Prod.fst }

/-! Helper lemmas about the string order and the sort. -/

theorem strLe_cons (a b : Char) (as bs : List Char) :
    strLe (a :: as) (b :: bs) = true ↔
      a.toNat < b.toNat ∨ (a.toNat = b.toNat ∧ strLe as bs = true) := by
  by_cases h1 : a.toNat < b.toNat
  · simp [strLe, h1]
  · by_cases h2 : b.toNat < a.toNat
    · simp only [strLe, if_neg h1, if_pos h2]
      constructor
      · intro h; cases h
      · rintro (h | ⟨h, _⟩) <;> omega
    · have h3 : a.toNat = b.toNat := by omega
      simp [strLe, h1, h2, h3]

theorem strLe_total (as bs : List Char) : strLe as bs = true ∨ strLe bs as = true := by
  induction as generalizing bs with
  | nil => left; rfl
  | cons a as ih =>
    cases bs with
    | nil => right; rfl
    | cons b bs =>
      rcases Nat.lt_trichotomy a.toNat b.toNat with h | h | h
      · left; exact (strLe_cons a b as bs).mpr (Or.inl h)
      · rcases ih bs with h2 | h2
        · left; exact (strLe_cons a b as bs).mpr (Or.inr ⟨h, h2⟩)
        · right; exact (strLe_cons b a bs as).mpr (Or.inr ⟨h.symm, h2⟩)
      · right; exact (strLe_cons b a bs as).mpr (Or.inl h)

theorem strLe_trans {as bs cs : List Char} (hab : strLe as bs = true)
    (hbc : strLe bs cs = true) : strLe as cs = true := by
  induction as generalizing bs cs with
  | nil => rfl
  | cons a as ih =>
    cases bs with
    | nil => cases hab
    | cons b bs =>
      cases cs with
      | nil => cases hbc
      | cons c cs =>
        rcases (strLe_cons a b as bs).mp hab with h1 | ⟨h1, h1r⟩ <;>
          rcases (strLe_cons b c bs cs).mp hbc with h2 | ⟨h2, h2r⟩
        · exact (strLe_cons a c as cs).mpr (Or.inl (by omega))
        · exact (strLe_cons a c as cs).mpr (Or.inl (by omega))
        · exact (strLe_cons a c as cs).mpr (Or.inl (by omega))
        · exact (strLe_cons a c as cs).mpr (Or.inr ⟨by omega, ih h1r h2r⟩)

theorem pyLe_total (a b : String) : pyLe a b = true ∨ pyLe b a = true :=
  strLe_total a.toList b.toList

theorem pyLe_trans {a b c : String} (hab : pyLe a b = true)
    (hbc : pyLe b c = true) : pyLe a c = true :=
  strLe_trans hab hbc

theorem mem_insertSorted {a x : String} {l : List String} :
    a ∈ insertSorted x l ↔ a = x ∨ a ∈ l := by
  induction l with
  | nil => simp [insertSorted]
  | cons y ys ih =>
    by_cases h : pyLe x y = true
    · simp [insertSorted, h]
    · simp only [insertSorted, if_neg h, List.mem_cons, ih]
      tauto

theorem insertSorted_perm (x : String) (l : List String) :
    List.Perm (insertSorted x l) (x :: l) := by
  induction l with
  | nil => rfl
  | cons y ys ih =>
    by_cases h : pyLe x y = true
    · simp [insertSorted, h]
    · simp only [insertSorted, if_neg h]
      exact ((ih.cons y).trans (List.Perm.swap x y ys))

theorem sortStrings_perm (l : List String) : List.Perm (sortStrings l) l := by
  induction l with
  | nil => rfl
  | cons x xs ih => exact (insertSorted_perm x (sortStrings xs)).trans (ih.cons x)

theorem mem_sortStrings {a : String} {l : List String} :
    a ∈ sortStrings l ↔ a ∈ l :=
  (sortStrings_perm l).mem_iff

theorem strSorted_insertSorted (x : String) {l : List String}
    (h : strSorted l) : strSorted (insertSorted x l) := by
  induction l with
  | nil => simp [insertSorted, strSorted]
  | cons y ys ih =>
    rcases List.pairwise_cons.mp h with ⟨hy, hys⟩
    by_cases hxy : pyLe x y = true
    · rw [strSorted, insertSorted, if_pos hxy]
      refine List.pairwise_cons.mpr ⟨?_, h⟩
      intro b hb
      rcases List.mem_cons.mp hb with rfl | hb
      · exact hxy
      · exact pyLe_trans hxy (hy b hb)
    · rw [strSorted, insertSorted, if_neg hxy]
      refine List.pairwise_cons.mpr ⟨?_, ih hys⟩
      intro b hb
      rcases mem_insertSorted.mp hb with hbx | hb
      · rcases pyLe_total x y with hp | hp
        · exact absurd hp hxy
        · rw [hbx]; exact hp
      · exact hy b hb

theorem strSorted_sortStrings (l : List String) : strSorted (sortStrings l) := by
  induction l with
  | nil => simp [sortStrings, strSorted]
  | cons x xs ih => exact strSorted_insertSorted x ih

/-! Helper lemmas about the dictionary model. -/

theorem pyIn_empty (s : String) : pyIn "" s = true := by
  rw [pyIn]
  cases s.toList with
  | nil => rfl
  | cons c cs => rfl

theorem plookup_pinsert_self {α : Type} (m : List ((String × String) × α))
    (k : String × String) (v : α) : plookup (pinsert m k v) k = some v := by
  induction m with
  | nil => simp [pinsert, plookup]
  | cons p ps ih =>
    cases h : (p.1.1 == k.1 && p.1.2 == k.2) with
    | true => simp [pinsert, plookup, h]
    | false => simp [pinsert, plookup, h, ih]

theorem mem_pinsert {α : Type} {m : List ((String × String) × α)}
    {k : String × String} {v : α} {q : (String × String) × α}
    (hq : q ∈ pinsert m k v) : q.1 = k ∨ ∃ r ∈ m, q.1 = r.1 := by
  induction m with
  | nil =>
    simp only [pinsert, List.mem_singleton] at hq
    left; rw [hq]
  | cons p ps ih =>
    cases h : (p.1.1 == k.1 && p.1.2 == k.2) with
    | true =>
      rw [pinsert, if_pos (by rw [h])] at hq
      rcases List.mem_cons.mp hq with rfl | hq
      · right; exact ⟨p, List.mem_cons_self p ps, rfl⟩
      · right; exact ⟨q, List.mem_cons_of_mem p hq, rfl⟩
    | false =>
      rw [pinsert, if_neg (by rw [h]; exact Bool.false_ne_true)] at hq
      rcases List.mem_cons.mp hq with rfl | hq
      · right; exact ⟨q, List.mem_cons_self q ps, rfl⟩
      · rcases ih hq with h1 | ⟨r, hr, h2⟩
        · exact Or.inl h1
        · exact Or.inr ⟨r, List.mem_cons_of_mem p hr, h2⟩

theorem alookup_mem_key {α : Type} {m : List (String × α)} {k : String} {v : α}
    (h : alookup m k = some v) : ∃ p ∈ m, p.1 = k := by
  induction m with
  | nil => cases h
  | cons p ps ih =>
    by_cases hp : p.1 = k
    · exact ⟨p, List.mem_cons_self p ps, hp⟩
    · rw [alookup, if_neg (by simpa using hp)] at h
      rcases ih h with ⟨q, hq, h2⟩
      exact ⟨q, List.mem_cons_of_mem p hq, h2⟩

theorem alookup_eraseKey {α : Type} (m : List (String × α)) (s y : String) :
    alookup (eraseKey m s) y = if y = s then none else alookup m y := by
  induction m with
  | nil => simp [eraseKey, alookup]
  | cons p ps ih =>
    by_cases h1 : p.1 = s
    · rw [eraseKey, if_pos (by simpa using h1), ih]
      by_cases h2 : y = s
      · simp [h2]
      · have hpy : ¬p.1 = y := by rw [h1]; exact fun hh => h2 hh.symm
        simp [alookup, h2, hpy]
    · rw [eraseKey, if_neg (by simpa using h1)]
      by_cases h3 : p.1 = y
      · have h4 : ¬y = s := by rw [← h3]; exact h1
        simp [alookup, h3, h4]
      · simp [alookup, h3, ih]

/-- A truthy-respecting double lookup (raw key, then lower-cased key) is
unchanged when a key bound to a falsy value is removed. -/
theorem lookup2_eraseKey_falsy {m : List (String × Val)} {s : String} {v : Val}
    (x : String) (hs : alookup m s = some v) (hv : truthy v = false) :
    pyTruthy (pyOrV (alookup m x) (alookup m (pyLower x))) =
      pyTruthy (pyOrV (alookup (eraseKey m s) x)
        (alookup (eraseKey m s) (pyLower x))) := by
  rw [alookup_eraseKey, alookup_eraseKey]
  by_cases h1 : x = s
  · rw [if_pos h1, h1, hs]
    by_cases h2 : pyLower s = s
    · rw [if_pos h2, h2, hs]
      simp [pyOrV, pyTruthy, truthyO, hv]
    · rw [if_neg h2]
      simp [pyOrV, pyTruthy, truthyO, hv]
  · rw [if_neg h1]
    by_cases h2 : pyLower x = s
    · rw [if_pos h2, h2, hs]
      cases ha : alookup m x with
      | none => simp [pyOrV, pyTruthy, truthyO, hv]
      | some w =>
        cases hw : truthy w with
        | true => simp [pyOrV, truthyO, hw]
        | false => simp [pyOrV, pyTruthy, truthyO, hv, hw]
    · rw [if_neg h2]

theorem insertSpecs_lowKeys (cls : String) (specs : RawSpecs) :
    ∀ acc : GuideMap, lowKeys acc → lowKeys (insertSpecs cls specs acc) := by
  induction specs with
  | nil => intro acc h; exact h
  | cons q qs ih =>
    intro acc h
    simp only [insertSpecs, List.foldl_cons]
    refine ih (pinsert acc (pyLower cls, pyLower q.1) q.2) ?_
    intro p hp
    rcases mem_pinsert hp with h1 | ⟨r, hr, h2⟩
    · exact ⟨cls, q.1, h1⟩
    · rw [h2]; exact h r hr

theorem buildProvider_lowKeys (classes : RawClasses) :
    lowKeys (buildProvider classes) := by
  have aux : ∀ (cs : RawClasses) (acc : GuideMap), lowKeys acc →
      lowKeys (cs.foldl (fun a p => insertSpecs p.1 (p.2.getD []) a) acc) := by
    intro cs
    induction cs with
    | nil => intro acc h; exact h
    | cons c cs ih =>
      intro acc h
      simp only [List.foldl_cons]
      exact ih _ (insertSpecs_lowKeys _ _ _ h)
  exact aux classes [] (by intro p hp; cases hp)

/-! Theorems for the claims. -/

/-- C1: for every (class, spec) pair present in exactly one provider's guide
map, the guide command reports that provider's link as present and the other
provider as absent, and does not report not-found; not-found is reported
exactly when the pair is absent from both provider maps. -/
theorem c1_guide_single_provider (wh icy : GuideMap) (klasse spec : String) :
    (∀ u, plookup wh (pyLower klasse, pyLower spec) = some u →
       plookup icy (pyLower klasse, pyLower spec) = none →
       resolveGuide wh icy klasse spec = GuideRes.found (some u) none) ∧
    (∀ u, plookup wh (pyLower klasse, pyLower spec) = none →
       plookup icy (pyLower klasse, pyLower spec) = some u →
       resolveGuide wh icy klasse spec = GuideRes.found none (some u)) ∧
    (resolveGuide wh icy klasse spec = GuideRes.notFound ↔
       plookup wh (pyLower klasse, pyLower spec) = none ∧
       plookup icy (pyLower klasse, pyLower spec) = none) := by
  refine ⟨?_, ?_, ?_⟩
  · intro u hw hi; simp [resolveGuide, hw, hi]
  · intro u hw hi; simp [resolveGuide, hw, hi]
  · cases hw : plookup wh (pyLower klasse, pyLower spec) <;>
      cases hi : plookup icy (pyLower klasse, pyLower spec) <;>
      simp [resolveGuide, hw, hi]

/-- C1 witness: with the pair ("warrior", "fury") in the wowhead map only,
the guide command reports the wowhead link present, the icy_veins link
absent, and not not-found. -/
theorem c1_witness :
    resolveGuide [(("warrior", "fury"), "https://a")] [] "warrior" "fury" =
      GuideRes.found (some "https://a") none :=
  (c1_guide_single_provider [(("warrior", "fury"), "https://a")] [] "warrior"
    "fury").1 "https://a" rfl rfl

/-- C2: guide resolution is casing-insensitive — inputs agreeing up to
lower-casing resolve identically (so ("Paladin", "Prot") and
("paladin", "prot") yield the same result) — because the lookup lower-cases
its inputs and the index keys are lower-cased at build time, with the last
write winning for a repeated key. -/
theorem c2_resolveGuide_case_insensitive :
    (∀ (wh icy : GuideMap) (k s k2 s2 : String),
       pyLower k = pyLower k2 → pyLower s = pyLower s2 →
       resolveGuide wh icy k s = resolveGuide wh icy k2 s2) ∧
    (∀ doc : Option GuidesRaw,
       lowKeys (load_guides doc).1 ∧ lowKeys (load_guides doc).2) ∧
    (∀ (m : GuideMap) (k : String × String) (v : String),
       plookup (pinsert m k v) k = some v) := by
  refine ⟨?_, ?_, plookup_pinsert_self⟩
  · intro wh icy k s k2 s2 hk hs
    rw [resolveGuide, resolveGuide, hk, hs]
  · intro doc
    exact ⟨buildProvider_lowKeys _, buildProvider_lowKeys _⟩

/-- C2 witness: concrete casing round-trip, a concretely lower-cased built
key, and last-write-wins at a concrete key. -/
theorem c2_witness :
    resolveGuide [(("paladin", "prot"), "u")] [] "Paladin" "Prot" =
      resolveGuide [(("paladin", "prot"), "u")] [] "paladin" "prot" ∧
    (∃ c s, ((("paladin", "prot"), "u") : (String × String) × String).1 =
      (pyLower c, pyLower s)) ∧
    plookup (pinsert [((("x", "y") : String × String), "a")] ("x", "y") "b")
      ("x", "y") = some "b" := by
  refine ⟨c2_resolveGuide_case_insensitive.1 _ _ "Paladin" "Prot" "paladin"
    "prot" (by decide) (by decide), ?_, c2_resolveGuide_case_insensitive.2.2 _ _ _⟩
  exact (c2_resolveGuide_case_insensitive.2.1
    (some [("wowhead", some [("Paladin", some [("Prot", "u")])])])).1
    (("paladin", "prot"), "u") (by decide)

/-- C6: loading tolerates every combination of absent source documents — a
missing (or empty) document yields an empty index for its category, with all
documents missing all four indices are empty, and then every resolution call
reports not-found for every input. -/
theorem c6_missing_sources (g : Option GuidesRaw) (m r : Option WrappedDoc)
    (mu : Option MurlocDoc) (k s item b vs : String) :
    (setup_hook none m mu r).wowhead = [] ∧
    (setup_hook none m mu r).icy = [] ∧
    (setup_hook g none mu r).mplus_routes = [] ∧
    (setup_hook g m none r).murloc = [] ∧
    (setup_hook g m mu none).raids = [] ∧
    resolveGuide (setup_hook none none none none).wowhead
      (setup_hook none none none none).icy k s = GuideRes.notFound ∧
    resolveDungeon (setup_hook none none none none).mplus_routes item = none ∧
    resolveVariant (setup_hook none none none none).murloc vs = none ∧
    resolveBoss (setup_hook none none none none).raids b = none :=
  ⟨rfl, rfl, rfl, rfl, rfl, rfl, rfl, rfl, rfl⟩

/-- C3 counterexample: in a knowledge base whose guide index holds the class
"druid" in the icy_veins map only, the class autocomplete with empty input
returns nothing at all — the code derives `all_classes` from the wowhead map
alone (src line 142), so a class present only in the other provider's map is
missing from the suggestions, refuting the claim for "either provider". -/
theorem c3_cex :
    ("druid" ∈ ([(("druid", "balance"), "https://icy")] : GuideMap).map
      fun p => p.1.1) ∧
    klasse_autocomplete (all_classes ([] : GuideMap)) "" = [] :=
  ⟨by simp, rfl⟩

/-- C3 amended: the class autocomplete with empty input returns the distinct
classes of the wowhead provider's map only — each exactly once, in sorted
order, truncated to the first 25 (classes occurring only in the icy_veins
map are not included). -/
theorem c3_klasse_autocomplete_wowhead (wh : GuideMap) :
    (klasse_autocomplete (all_classes wh) "").map Prod.snd =
      (all_classes wh).take 25 ∧
    (all_classes wh).Nodup ∧
    strSorted (all_classes wh) ∧
    (∀ c, c ∈ all_classes wh ↔ c ∈ wh.map fun p => p.1.1) ∧
    (klasse_autocomplete (all_classes wh) "").length ≤ 25 := by
  have hfil : (all_classes wh).filter
      (fun cls => pyIn (pyLower "") (pyLower cls)) = all_classes wh :=
    List.filter_eq_self.mpr fun a _ => pyIn_empty (pyLower a)
  refine ⟨?_, ?_, ?_, ?_, ?_⟩
  · rw [klasse_autocomplete, hfil, ← List.map_take, List.map_map]
    have h : (Prod.snd ∘ fun cls : String => (pyTitle cls, cls)) =
        fun cls : String => cls := rfl
    rw [h, List.map_id']
  · exact ((sortStrings_perm _).nodup_iff).mpr (List.nodup_dedup _)
  · exact strSorted_sortStrings _
  · intro c
    rw [all_classes, mem_sortStrings, List.mem_dedup]
  · rw [klasse_autocomplete]
    simp [List.length_take]

/-- C4 counterexample: with the entry stored under the slug "HoA" (not
lower-case), the input "hoa" — a casing of that slug — resolves to
not-found, and the input "HoA", whose lower-casing matches no stored slug,
still resolves to the entry; both directions of the claim fail because the
code lowers only the input, never the stored slug (src lines 301-305). -/
theorem c4_cex :
    resolveDungeon [("HoA", Val.dict [("name", Val.str "Halls of Atonement"),
      ("url", Val.str "https://x")])] "hoa" = none ∧
    resolveDungeon [("HoA", Val.dict [("name", Val.str "Halls of Atonement"),
      ("url", Val.str "https://x")])] "HoA" =
      some (Val.dict [("name", Val.str "Halls of Atonement"),
        ("url", Val.str "https://x")]) :=
  ⟨rfl, rfl⟩

/-- C4 amended: when every stored slug is lower-case, every casing of a slug
bound to a truthy entry resolves to that entry; and any input is resolved to
not-found when neither the raw input nor its lower-casing is bound to a
truthy entry. -/
theorem c4_resolveDungeon_lowercase (routes : List (String × Val))
    (item : String) :
    (∀ v, (∀ p ∈ routes, pyLower p.1 = p.1) →
       alookup routes (pyLower item) = some v → truthy v = true →
       resolveDungeon routes item = some v) ∧
    (truthyO (alookup routes item) = false →
       truthyO (alookup routes (pyLower item)) = false →
       resolveDungeon routes item = none) := by
  constructor
  · intro v hkeys hlow htr
    cases ha : alookup routes item with
    | none =>
      rw [resolveDungeon, pyOrV, if_neg (by rw [ha]; exact Bool.false_ne_true),
        hlow, pyTruthy, if_pos (by rw [truthyO, htr])]
    | some w =>
      rcases alookup_mem_key ha with ⟨p, hp, hpk⟩
      have hit : pyLower item = item := by rw [← hpk]; exact hkeys p hp
      rw [hit] at hlow
      rw [hlow] at ha
      cases ha
      rw [resolveDungeon, pyOrV, if_pos (by rw [hlow, truthyO, htr]), hlow,
        pyTruthy, if_pos (by rw [truthyO, htr])]
  · intro h1 h2
    rw [resolveDungeon, pyOrV, if_neg (by rw [h1]; exact Bool.false_ne_true),
      pyTruthy, if_neg (by rw [h2]; exact Bool.false_ne_true)]

/-- C4 witness: with the entry stored under the lower-case slug "hoa", the
inputs "HOA" and "hoa" both resolve to the entry, and "unknown" resolves to
not-found. -/
theorem c4_witness :
    resolveDungeon [("hoa", Val.dict [("name", Val.str "Halls of Atonement"),
      ("url", Val.str "https://x")])] "HOA" =
      some (Val.dict [("name", Val.str "Halls of Atonement"),
        ("url", Val.str "https://x")]) ∧
    resolveDungeon [("hoa", Val.dict [("name", Val.str "Halls of Atonement"),
      ("url", Val.str "https://x")])] "hoa" =
      some (Val.dict [("name", Val.str "Halls of Atonement"),
        ("url", Val.str "https://x")]) ∧
    resolveDungeon [("hoa", Val.dict [("name", Val.str "Halls of Atonement"),
      ("url", Val.str "https://x")])] "unknown" = none := by
  refine ⟨(c4_resolveDungeon_lowercase _ "HOA").1 _ ?_ rfl rfl,
    (c4_resolveDungeon_lowercase _ "hoa").1 _ ?_ rfl rfl,
    (c4_resolveDungeon_lowercase _ "unknown").2 rfl rfl⟩ <;>
  · intro p hp
    rcases List.mem_singleton.mp hp with rfl
    rfl

/-- C5 counterexample: a murloc mapping entry with one URL-like value and
one non-URL value is still rendered as a list of links — the code tests
`any(...)`, not "all values are URL-like" (src lines 329-331) — refuting the
claimed "if and only if all of the mapping's values are URL-like". -/
theorem c5_cex :
    resolveVariant [("mage", Val.dict [("fire", Val.str "http://f"),
      ("note", Val.str "wip")])] "mage" =
      some (Val.dict [("fire", Val.str "http://f"), ("note", Val.str "wip")]) ∧
    allUrl [("fire", Val.str "http://f"), ("note", Val.str "wip")] = false ∧
    (mplus [] [("mage", Val.dict [("fire", Val.str "http://f"),
      ("note", Val.str "wip")])] "murloc" "mage").isLinkList = true :=
  ⟨rfl, rfl, rfl⟩

/-- C5 amended: a mapping-shaped variant entry is rendered as a list of
links if and only if at least one of its values is a URL-like string (the
rendered list holding exactly the URL-like items, key-sorted); a mapping
with no URL-like value is rendered as a single name/url link; a plain string
is rendered as display text. -/
theorem c5_mplus_murloc_shape (routes m : List (String × Val)) (item : String) :
    (∀ l, resolveVariant m item = some (Val.dict l) →
       (mplus routes m "murloc" item).isLinkList = anyUrl l ∧
       (anyUrl l = false →
          mplus routes m "murloc" item =
            Render.murlocSingle (dnameD l item) (durl l)) ∧
       (anyUrl l = true →
          mplus routes m "murloc" item =
            Render.linkList (pyTitle (pyReplaceChar item '_' ' '))
              (((sortByKey l).filter fun p => isHttp p.2).map
                fun p => (pyTitle p.1, valStr p.2)))) ∧
    (∀ s, resolveVariant m item = some (Val.str s) →
       mplus routes m "murloc" item = Render.murlocPlain s) ∧
    (resolveVariant m item = none →
       mplus routes m "murloc" item = Render.murlocNotFound item) := by
  refine ⟨?_, ?_, ?_⟩
  · intro l h
    cases ha : anyUrl l with
    | true => simp [mplus, h, ha, Render.isLinkList]
    | false => simp [mplus, h, ha, Render.isLinkList]
  · intro s h; simp [mplus, h]
  · intro h; simp [mplus, h]

/-- C5 witness: a singleton URL-valued mapping renders as a list of links
(its shape flag equals `anyUrl`), and a plain-string entry renders as
display text. -/
theorem c5_witness :
    (mplus [] [("mage", Val.dict [("fire", Val.str "http://f")])] "murloc"
      "mage").isLinkList = anyUrl [("fire", Val.str "http://f")] ∧
    mplus [] [("pepo", Val.str "just a murloc")] "murloc" "pepo" =
      Render.murlocPlain "just a murloc" :=
  ⟨((c5_mplus_murloc_shape [] [("mage", Val.dict [("fire", Val.str "http://f")])]
      "mage").1 [("fire", Val.str "http://f")] rfl).1,
   (c5_mplus_murloc_shape [] [("pepo", Val.str "just a murloc")] "pepo").2.1
     "just a murloc" rfl⟩

/-- C7: the spec autocomplete returns the empty list when no class is
selected, when the selected class is empty, and when the selected class is
not a known class of the guide index; and every suggestion it returns is a
spec belonging to the selected class in the wowhead guide map. -/
theorem c7_spec_autocomplete_scoped (wh icy : GuideMap) (c current : String) :
    spec_autocomplete wh none current = [] ∧
    spec_autocomplete wh (some "") current = [] ∧
    ((pyLower c ∉ wh.map fun p => p.1.1) →
     (pyLower c ∉ icy.map fun p => p.1.1) →
       spec_autocomplete wh (some c) current = []) ∧
    (∀ x, x ∈ spec_autocomplete wh (some c) current →
       (pyLower c, x.2) ∈ wh.map Prod.fst) := by
  refine ⟨rfl, rfl, ?_, ?_⟩
  · intro hwh _
    rw [spec_autocomplete]
    by_cases hc : (c == "") = true
    · rw [if_pos hc]
    · rw [if_neg hc]
      have hfil : wh.filter (fun p => p.1.1 == pyLower c) = [] := by
        refine List.filter_eq_nil_iff.mpr fun p hp hcontra => ?_
        exact hwh (List.mem_map.mpr ⟨p, hp, by simpa using hcontra⟩)
      rw [hfil]
      rfl
  · intro x hx
    rw [spec_autocomplete] at hx
    by_cases hc : (c == "") = true
    · rw [if_pos hc] at hx; cases hx
    · rw [if_neg hc] at hx
      have hx2 := List.mem_of_mem_take hx
      rcases List.mem_map.mp hx2 with ⟨spec, hspec, hfx⟩
      have hspec2 := List.mem_filter.mp hspec
      have hspec3 := mem_sortStrings.mp hspec2.1
      rcases List.mem_map.mp hspec3 with ⟨p, hp, hps⟩
      have hpf := List.mem_filter.mp hp
      refine List.mem_map.mpr ⟨p, hpf.1, ?_⟩
      have h1 : p.1.1 = pyLower c := by simpa using hpf.2
      have h2 : x.2 = spec := by rw [← hfx]
      rw [h2, ← hps, ← h1]

/-- C7 witness: with only warrior specs in the map, the autocomplete is
empty for a missing, empty, or unknown class, and a returned suggestion for
"warrior" is a spec of "warrior". -/
theorem c7_witness :
    spec_autocomplete [(("warrior", "fury"), "u")] none "" = [] ∧
    spec_autocomplete [(("warrior", "fury"), "u")] (some "") "" = [] ∧
    spec_autocomplete [(("warrior", "fury"), "u")] (some "mage") "" = [] ∧
    (pyLower "warrior", (("Fury", "fury") : String × String).2) ∈
      ([(("warrior", "fury"), "u")] : GuideMap).map Prod.fst := by
  refine ⟨(c7_spec_autocomplete_scoped _ [] "x" "").1,
    (c7_spec_autocomplete_scoped _ [] "x" "").2.1,
    (c7_spec_autocomplete_scoped _ [] "mage" "").2.2.1 (by decide) (by decide),
    (c7_spec_autocomplete_scoped [(("warrior", "fury"), "u")] [] "warrior"
      "").2.2.2 ("Fury", "fury") ?_⟩
  decide

/-- C8: every suggestion operation returns at most 25 entries, for every
input (including the empty partial input, which matches everything). -/
theorem c8_suggestion_cap (ac : List String) (wh : GuideMap)
    (routes raids murloc : List (String × Val)) (sel src : Option String)
    (current : String) :
    (klasse_autocomplete ac current).length ≤ 25 ∧
    (spec_autocomplete wh sel current).length ≤ 25 ∧
    (dungeon_autocomplete routes current).length ≤ 25 ∧
    (raid_autocomplete raids current).length ≤ 25 ∧
    (murloc_autocomplete murloc current).length ≤ 25 ∧
    (mplus_item_autocomplete routes murloc src current).length ≤ 25 := by
  refine ⟨?_, ?_, ?_, ?_, ?_, ?_⟩
  · rw [klasse_autocomplete]; simp [List.length_take]
  · cases sel with
    | none => simp [spec_autocomplete]
    | some sc =>
      rw [spec_autocomplete]
      by_cases hc : (sc == "") = true
      · rw [if_pos hc]; simp
      · rw [if_neg hc]; simp [List.length_take]
  · rw [dungeon_autocomplete]; simp [List.length_take]
  · rw [raid_autocomplete]; simp [List.length_take]
  · rw [murloc_autocomplete]; simp [List.length_take]
  · rw [mplus_item_autocomplete]
    by_cases h1 : (Option.getD src "" == "routes") = true
    · rw [if_pos h1]; simp [List.length_take]
    · rw [if_neg h1]
      by_cases h2 : (Option.getD src "" == "murloc") = true
      · rw [if_pos h2, murloc_autocomplete]; simp [List.length_take]
      · rw [if_neg h2]; simp

/-- C9 (modelled from the spec; the scanner is absent from the source tree):
the mention scanner yields no match in any category on empty indices; any
guide match it reports is a known (class, spec) pair of the guide index whose
"spec class" or "class spec" concatenation occurs in the lower-cased text
(and the result type carries at most one match per category by construction);
and for a singleton guide index, a text containing the known "spec class"
pair yields exactly that guide match. -/
theorem c9_scanMentions (kb : KB) (text : String) :
    (kb.wowhead = [] → kb.icy = [] → kb.mplus_routes = [] → kb.raids = [] →
       (scanMentions kb text).guideMatch = none ∧
       (scanMentions kb text).dungeonMatch = none ∧
       (scanMentions kb text).bossMatch = none) ∧
    (∀ p, (scanMentions kb text).guideMatch = some p →
       (p ∈ kb.wowhead.map Prod.fst ∨ p ∈ kb.icy.map Prod.fst) ∧
       (pyIn (p.2 ++ " " ++ p.1) (pyLower text) = true ∨
        pyIn (p.1 ++ " " ++ p.2) (pyLower text) = true)) ∧
    (∀ c s u, kb.wowhead = [((c, s), u)] → kb.icy = [] →
       pyIn (s ++ " " ++ c) (pyLower text) = true →
       (scanMentions kb text).guideMatch = some (c, s)) := by
  refine ⟨?_, ?_, ?_⟩
  · intro h1 h2 h3 h4
    refine ⟨?_, ?_, ?_⟩ <;> simp [scanMentions, h1, h2, h3, h4]
  · intro p hp
    rw [scanMentions] at hp
    have hmem := List.mem_of_find?_eq_some hp
    have hpred := List.find?_some hp
    constructor
    · rcases List.mem_append.mp hmem with h | h
      · exact Or.inl h
      · exact Or.inr h
    · rcases Bool.or_eq_true_iff.mp hpred with h | h
      · exact Or.inl h
      · exact Or.inr h
  · intro c s u hw hi hin
    rw [scanMentions, hw, hi]
    simp only [List.map_cons, List.map_nil, List.append_nil, List.find?_cons]
    rw [hin]
    rfl

/-- C9 witness: a singleton fury-warrior guide index and the text
"check out the fury warrior build" produce the guide match
("warrior", "fury"); empty indices produce no match in any category. -/
theorem c9_witness :
    (scanMentions ⟨[(("warrior", "fury"), "https://a")], [], [], [], []⟩
      "check out the fury warrior build").guideMatch = some ("warrior", "fury") ∧
    (scanMentions ⟨[], [], [], [], []⟩ "fury warrior").guideMatch = none :=
  ⟨(c9_scanMentions ⟨[(("warrior", "fury"), "https://a")], [], [], [], []⟩
      "check out the fury warrior build").2.2 "warrior" "fury" "https://a"
      rfl rfl (by decide),
   ((c9_scanMentions ⟨[], [], [], [], []⟩ "fury warrior").1 rfl rfl rfl rfl).1⟩

/-- C10: an index entry whose stored value is falsy (an empty mapping or
empty string) behaves exactly as if its slug were absent — removing it
changes no resolution result — and when such a slug is itself lower-case,
resolving it directly reports not-found. -/
theorem c10_falsy_as_absent (m : List (String × Val)) (s x : String) (v : Val) :
    (alookup m s = some v → truthy v = false →
       resolveDungeon m x = resolveDungeon (eraseKey m s) x ∧
       resolveVariant m x = resolveVariant (eraseKey m s) x ∧
       resolveBoss m x = resolveBoss (eraseKey m s) x) ∧
    (alookup m s = some v → truthy v = false → pyLower s = s →
       resolveDungeon m s = none ∧ resolveVariant m s = none ∧
       resolveBoss m s = none) := by
  constructor
  · intro hs hv
    refine ⟨lookup2_eraseKey_falsy x hs hv, lookup2_eraseKey_falsy x hs hv, ?_⟩
    rw [resolveBoss, resolveBoss, alookup_eraseKey]
    by_cases h : pyLower x = s
    · rw [if_pos h, h, hs]
      simp [pyTruthy, truthyO, hv]
    · rw [if_neg h]
  · intro hs hv hls
    have hlow : alookup m (pyLower s) = some v := by rw [hls, hs]
    refine ⟨?_, ?_, ?_⟩ <;>
      simp [resolveDungeon, resolveVariant, resolveBoss, pyOrV, pyTruthy,
        truthyO, hs, hlow, hv]

/-- C10 witness: an empty-mapping entry under "hoa" resolves as if absent,
and resolves to not-found directly. -/
theorem c10_witness :
    resolveDungeon [("hoa", Val.dict []), ("ok", Val.str "x")] "hoa" =
      resolveDungeon (eraseKey [("hoa", Val.dict []), ("ok", Val.str "x")]
        "hoa") "hoa" ∧
    resolveVariant [("hoa", Val.dict []), ("ok", Val.str "x")] "hoa" = none :=
  ⟨((c10_falsy_as_absent [("hoa", Val.dict []), ("ok", Val.str "x")] "hoa"
      "hoa" (Val.dict [])).1 rfl rfl).1,
   ((c10_falsy_as_absent [("hoa", Val.dict []), ("ok", Val.str "x")] "hoa"
      "hoa" (Val.dict [])).2 rfl rfl rfl).2.1⟩

end WowBot
